import Mathlib

set_option maxHeartbeats 1000000

/-!
Verification development for the BLE ACL-manager facade
(system/gd/hci/facade/le_acl_manager_facade.cc).

The facade is embedded shallowly as a state machine over
`LeAclManagerFacadeService` states.  Machine integers are modelled as `Nat`
with an explicit modulus where the C++ width matters: the request counter
`current_connection_request_` is a `uint32_t`, so its increment and the
addition inside `to_handle` are taken modulo `UINT32_MOD`.  Fallible paths
(ASSERT failures, out-of-bounds `std::vector::operator[]` accesses, which are
undefined behaviour) are modelled with `Option`: `none` means the C++ call
does not return normally.

External collaborators are modelled at their interface boundary, following
the spec:
- a `GrpcEventQueue` is a list of already-pushed events (`OnIncomingEvent`
  appends);
- `hci::Address` values stay in their textual form; whether
  `Address::FromString` succeeds is carried as a validity flag on the request
  message;
- the packets produced by `LeConnectionCompleteBuilder` and
  `DisconnectBuilder` are modelled by their field contents (serialization is
  external);
- calls into the external `AclManager` / `LeAclConnection` objects
  (`CreateLeConnection`, `Disconnect`, enqueue of a payload, dequeue/finish
  on disconnect) are recorded as observable effects in the state.
-/

namespace LeAclManagerFacade

/-- Modulus of the C++ type `uint32_t`; `current_connection_request_` is a
`uint32_t`, so it wraps at this modulus. -/
def UINT32_MOD : Nat := 4294967296

/-- Peer device address, kept in the textual form carried by the RPC
message (`hci::Address` parsing is an external collaborator). -/
abbrev Address := String

/-- Pair of an address and an address type, mirroring `hci::AddressWithType`
(the address type enum is kept as its numeric value). -/
structure AddressWithType where
  address : Address
  address_type : Nat
deriving DecidableEq, Repr

/-- RPC request message for `CreateConnection` (proto `LeConnectionMsg`).
The flag `address_valid` models whether the external
`Address::FromString(request->address(), peer_address)` succeeds; the C++
code `ASSERT`s on it. -/
structure LeConnectionMsg where
  address : Address
  address_type : Nat
  address_valid : Bool
deriving DecidableEq, Repr

/-- RPC message for `SendAclData` / `FetchAclData` (proto `LeAclData`):
a connection handle plus a raw payload (bytes as naturals). -/
structure LeAclData where
  handle : Nat
  payload : List Nat
deriving DecidableEq, Repr

/-- HCI error code, kept numeric; `ErrorCode::SUCCESS` is 0. -/
abbrev ErrorCode := Nat

/-- Numeric value of `ErrorCode::SUCCESS`. -/
def ErrorCode.SUCCESS : ErrorCode := 0

/-- Numeric value of `DisconnectReason::REMOTE_USER_TERMINATED_CONNECTION`
(HCI code 0x13), the reason the facade passes to `connection->Disconnect`. -/
def REMOTE_USER_TERMINATED_CONNECTION : Nat := 0x13

/-- Connection role, mirroring `hci::Role`. -/
inductive Role where
  | MASTER
  | SLAVE
deriving DecidableEq, Repr

/-- Clock accuracy enum; only `PPM_20` is used by the facade. -/
inductive ClockAccuracy where
  | PPM_20
deriving DecidableEq, Repr

/-- Content of a packet pushed into a per-request event channel, modelled by
the fields handed to the external packet builders:
`LeConnectionCompleteBuilder::Create(status, handle, role, peer_address_type,
peer_address, conn_interval, conn_latency, supervision_timeout,
clock_accuracy)` and `DisconnectBuilder::Create(handle, reason)`. -/
inductive LeConnectionEventPacket where
  | leConnectionComplete
      (status : ErrorCode) (handle : Nat) (role : Role)
      (peer_address_type : Nat) (peer_address : Address)
      (conn_interval : Nat) (conn_latency : Nat) (supervision_timeout : Nat)
      (clock_accuracy : ClockAccuracy)
  | disconnect (handle : Nat) (reason : Nat)
deriving DecidableEq, Repr

/-- Handle field of an event packet. -/
def handleOf : LeConnectionEventPacket → Nat
  | .leConnectionComplete _ h _ _ _ _ _ _ _ => h
  | .disconnect h _ => h

/-- Observable side of an external `LeAclConnection` object: whether a
dequeue callback is registered on its queue end, whether `Finish()` was
called, which `Disconnect(reason)` calls were issued on it, and the payloads
enqueued on its outbound queue (each payload handed over as the bytes of the
`RawBuilder` built by `enqueue_packet`). -/
structure LeAclConnection where
  dequeue_registered : Bool
  finished : Bool
  issued_disconnects : List Nat
  outbound : List (List Nat)
deriving DecidableEq, Repr

/-- Connection object as stored by `OnLeConnectSuccess`: dequeue callback
registered, not finished, no disconnects issued, nothing enqueued yet. -/
def newRegisteredConnection : LeAclConnection :=
  ⟨true, false, [], []⟩

/-- gRPC status codes used by the facade. -/
inductive StatusCode where
  | OK
  | INVALID_ARGUMENT
  | RESOURCE_EXHAUSTED
deriving DecidableEq, Repr

/-- gRPC status value: a code plus a message string. -/
structure Status where
  code : StatusCode
  message : String
deriving DecidableEq, Repr

/-- Lookup in an association-list map, mirroring `std::map::find`
(`acl_connections_` maps a handle to a connection). -/
def mapFind (k : Nat) : List (Nat × LeAclConnection) → Option LeAclConnection
  | [] => none
  | (k', v) :: rest => if k' = k then some v else mapFind k rest

/-- Insert-if-absent, mirroring `std::map::emplace`: when the key is already
present the map is unchanged (the new value is dropped). -/
def mapEmplace (k : Nat) (v : LeAclConnection) (m : List (Nat × LeAclConnection)) :
    List (Nat × LeAclConnection) :=
  match mapFind k m with
  | some _ => m
  | none => m ++ [(k, v)]

/-- Update the value stored at a key in place (mutation of the mapped-to
connection object through the map iterator); absent keys leave the map
unchanged. -/
def mapUpdate (k : Nat) (f : LeAclConnection → LeAclConnection)
    (m : List (Nat × LeAclConnection)) : List (Nat × LeAclConnection) :=
  m.map fun p => if p.1 = k then (k, f p.2) else p

/-- State of `LeAclManagerFacadeService`, with one field per C++ data member
plus `created_le_connections`, the log of calls the facade has issued to the
external connection manager primitive `acl_manager_->CreateLeConnection`. -/
structure LeAclManagerFacadeService where
  acl_connections : List (Nat × LeAclConnection)
  pending_acl_data : List LeAclData
  per_connection_events : List (List LeConnectionEventPacket)
  current_connection_request : Nat
  created_le_connections : List AddressWithType
deriving DecidableEq, Repr

/-- State of a freshly constructed service: empty registry, empty shared
data channel, empty request event log, counter zero, no manager calls. -/
def initialState : LeAclManagerFacadeService :=
  ⟨[], [], [], 0, []⟩

/-- Handle allocator `to_handle`:
`(current_request + 0x10) % 0xe00` computed in `uint32_t` arithmetic (the
sum wraps at `UINT32_MOD`); the final cast to `uint16_t` is the identity
because the result is below 0xe00 < 2^16. -/
def to_handle (current_request : Nat) : Nat :=
  ((current_request + 0x10) % UINT32_MOD) % 0xe00

/-- RPC handler `CreateConnection`.  In source order: `ASSERT` the address
parses (modelled by `address_valid`; failure does not return), call
`acl_manager_->CreateLeConnection(peer)` (recorded in the call log), then
the admission check against `per_connection_events_.size()`; on rejection
return `RESOURCE_EXHAUSTED`, otherwise append a fresh event channel and
stream it (`RunLoop` on `per_connection_events_[current_connection_request_]`,
whose indexing is undefined behaviour — `none` — when out of bounds). -/
def CreateConnection (request : LeConnectionMsg) (s : LeAclManagerFacadeService) :
    Option (Status × LeAclManagerFacadeService) :=
  if request.address_valid = false then none
  else if s.per_connection_events.length > s.current_connection_request then
    some (⟨StatusCode.RESOURCE_EXHAUSTED, "Only one outstanding request is supported"⟩,
      { s with created_le_connections :=
        s.created_le_connections ++ [⟨request.address, request.address_type⟩] })
  else
    match (s.per_connection_events ++ [[]])[s.current_connection_request]? with
    | none => none
    | some _ =>
      some (⟨StatusCode.OK, ""⟩,
        { s with
          created_le_connections :=
            s.created_le_connections ++ [⟨request.address, request.address_type⟩],
          per_connection_events := s.per_connection_events ++ [[]] })

/-- RPC handler `FetchIncomingConnection`: same admission check and channel
append as `CreateConnection`, with no peer argument and no manager call. -/
def FetchIncomingConnection (s : LeAclManagerFacadeService) :
    Option (Status × LeAclManagerFacadeService) :=
  if s.per_connection_events.length > s.current_connection_request then
    some (⟨StatusCode.RESOURCE_EXHAUSTED, "Only one outstanding connection is supported"⟩, s)
  else
    match (s.per_connection_events ++ [[]])[s.current_connection_request]? with
    | none => none
    | some _ =>
      some (⟨StatusCode.OK, ""⟩,
        { s with per_connection_events := s.per_connection_events ++ [[]] })

/-- RPC handler `Disconnect`: look the handle up in `acl_connections_`;
if absent return `INVALID_ARGUMENT` with no state change, otherwise issue
`connection->Disconnect(REMOTE_USER_TERMINATED_CONNECTION)` on the stored
connection object. -/
def Disconnect (request_handle : Nat) (s : LeAclManagerFacadeService) :
    Status × LeAclManagerFacadeService :=
  match mapFind request_handle s.acl_connections with
  | none => (⟨StatusCode.INVALID_ARGUMENT, "Invalid handle"⟩, s)
  | some _ =>
    let m := mapUpdate request_handle
      (fun c => { c with issued_disconnects :=
        c.issued_disconnects ++ [REMOTE_USER_TERMINATED_CONNECTION] })
      s.acl_connections
    (⟨StatusCode.OK, ""⟩, { s with acl_connections := m })

/-- RPC handler `SendAclData`: look the handle up in `acl_connections_`; if
absent return `INVALID_ARGUMENT` with no state change.  Otherwise the call
registers a one-shot enqueue callback, `enqueue_packet` hands the payload
bytes (as a `RawBuilder`) to the connection's outbound queue, unregisters
the callback and resolves the promise the handler is blocked on; the net
observable effect is the payload appended to the connection's outbound
queue and status `OK`. -/
def SendAclData (request : LeAclData) (s : LeAclManagerFacadeService) :
    Status × LeAclManagerFacadeService :=
  match mapFind request.handle s.acl_connections with
  | none => (⟨StatusCode.INVALID_ARGUMENT, "Invalid handle"⟩, s)
  | some _ =>
    let m := mapUpdate request.handle
      (fun c => { c with outbound := c.outbound ++ [request.payload] })
      s.acl_connections
    (⟨StatusCode.OK, ""⟩, { s with acl_connections := m })

/-- Callback `on_incoming_acl`: wrap one dequeued packet with its handle and
push it on the shared incoming-data channel `pending_acl_data_`. -/
def on_incoming_acl (handle : Nat) (packet : List Nat)
    (s : LeAclManagerFacadeService) : LeAclManagerFacadeService :=
  { s with pending_acl_data := s.pending_acl_data ++ [⟨handle, packet⟩] }

/-- Callback `on_disconnect(connection, entry, code)`: unregister the
dequeue callback and call `Finish()` on the connection (stored in the
registry under `to_handle entry`), then push a `DisconnectBuilder` packet
carrying `to_handle entry` and the reason into
`per_connection_events_[entry]` — undefined behaviour (`none`) when `entry`
is out of bounds.  The registry itself is not modified apart from the
connection object's own flags; no entry is removed. -/
def on_disconnect (entry : Nat) (code : ErrorCode)
    (s : LeAclManagerFacadeService) : Option LeAclManagerFacadeService :=
  match s.per_connection_events[entry]? with
  | none => none
  | some ch =>
    some { s with
      acl_connections := mapUpdate (to_handle entry)
        (fun c => { c with dequeue_registered := false, finished := true })
        s.acl_connections,
      per_connection_events := s.per_connection_events.set entry
        (ch ++ [LeConnectionEventPacket.disconnect (to_handle entry) code]) }

/-- Callback `OnLeConnectSuccess`: under the registry lock, `emplace` the
new connection at `to_handle current_connection_request_`, register the
dequeue and disconnect callbacks on it, push a success
`LeConnectionCompleteBuilder` packet (`SUCCESS`, allocated handle, MASTER,
peer address type and address, placeholder timing 1/2/3, `PPM_20`) into
`per_connection_events_[current_connection_request_]` (undefined behaviour —
`none` — when out of bounds), then increment the `uint32_t` counter. -/
def OnLeConnectSuccess (address_with_type : AddressWithType)
    (s : LeAclManagerFacadeService) : Option LeAclManagerFacadeService :=
  match s.per_connection_events[s.current_connection_request]? with
  | none => none
  | some ch =>
    some { s with
      acl_connections := mapEmplace (to_handle s.current_connection_request)
        newRegisteredConnection s.acl_connections,
      per_connection_events := s.per_connection_events.set
        s.current_connection_request
        (ch ++ [LeConnectionEventPacket.leConnectionComplete
          ErrorCode.SUCCESS (to_handle s.current_connection_request) Role.MASTER
          address_with_type.address_type address_with_type.address
          1 2 3 ClockAccuracy.PPM_20]),
      current_connection_request := (s.current_connection_request + 1) % UINT32_MOD }

/-- Callback `OnLeConnectFail`: push a failure `LeConnectionCompleteBuilder`
packet (the reason, sentinel handle 0, MASTER, peer address type and
address, timing 0/0/0, `PPM_20`) into
`per_connection_events_[current_connection_request_]` (undefined behaviour —
`none` — when out of bounds), then increment the `uint32_t` counter.  The
registry is untouched. -/
def OnLeConnectFail (address : AddressWithType) (reason : ErrorCode)
    (s : LeAclManagerFacadeService) : Option LeAclManagerFacadeService :=
  match s.per_connection_events[s.current_connection_request]? with
  | none => none
  | some ch =>
    some { s with
      per_connection_events := s.per_connection_events.set
        s.current_connection_request
        (ch ++ [LeConnectionEventPacket.leConnectionComplete
          reason 0 Role.MASTER address.address_type address.address
          0 0 0 ClockAccuracy.PPM_20]),
      current_connection_request := (s.current_connection_request + 1) % UINT32_MOD }

/-- Peer identity carried by a `CreateConnection` request message. -/
def peerOf (request : LeConnectionMsg) : AddressWithType :=
  ⟨request.address, request.address_type⟩

/-- One fully drained outgoing round: a `CreateConnection` RPC that is
admitted, whose stream is then terminated by the manager's success callback
for the same peer (the driver consumes the terminal event before the next
round starts). -/
def drainedRound (request : LeConnectionMsg) (s : LeAclManagerFacadeService) :
    Option LeAclManagerFacadeService :=
  match CreateConnection request s with
  | none => none
  | some (st, s1) =>
    if st.code = StatusCode.OK then OnLeConnectSuccess (peerOf request) s1 else none

/-- Run `k` drained outgoing rounds from the initial state, round `i` using
request message `reqs i`. -/
def runDrained (reqs : Nat → LeConnectionMsg) :
    Nat → Option LeAclManagerFacadeService
  | 0 => some initialState
  | k + 1 =>
    match runDrained reqs k with
    | none => none
    | some s => drainedRound (reqs k) s

/-- Success connection-complete event pushed for round `i`. -/
def successEvent (request : LeConnectionMsg) (i : Nat) : LeConnectionEventPacket :=
  .leConnectionComplete ErrorCode.SUCCESS (to_handle i) Role.MASTER
    request.address_type request.address 1 2 3 ClockAccuracy.PPM_20

/-- Request event log after `k` drained rounds. -/
def eventsAfter (reqs : Nat → LeConnectionMsg) (k : Nat) :
    List (List LeConnectionEventPacket) :=
  (List.range k).map fun i => [successEvent (reqs i) i]

/-- Connection-manager call log after `k` drained rounds. -/
def createdAfter (reqs : Nat → LeConnectionMsg) (k : Nat) : List AddressWithType :=
  (List.range k).map fun i => peerOf (reqs i)

/-- Connection registry after `k` drained rounds. -/
def registryAfter (k : Nat) : List (Nat × LeAclConnection) :=
  (List.range k).foldl (fun m i => mapEmplace (to_handle i) newRegisteredConnection m) []

/-- Closed form of the state after `k` drained rounds. -/
def stateAfterDrained (reqs : Nat → LeConnectionMsg) (k : Nat) :
    LeAclManagerFacadeService :=
  ⟨registryAfter k, [], eventsAfter reqs k, k % UINT32_MOD, createdAfter reqs k⟩

/-- Closed form of the state after `k` drained rounds followed by the
admission of the next request (fresh channel appended, terminal callback
still pending). -/
def pendingState (reqs : Nat → LeConnectionMsg) (k : Nat) :
    LeAclManagerFacadeService :=
  ⟨registryAfter k, [], eventsAfter reqs k ++ [[]], k % UINT32_MOD,
    createdAfter reqs k ++ [peerOf (reqs k)]⟩

/-- Handle carried by the first event on the n-th request's stream in a
drained run (requests counted from 1). -/
def nthDeliveredHandle (reqs : Nat → LeConnectionMsg) (n : Nat) : Option Nat :=
  match runDrained reqs n with
  | none => none
  | some s =>
    match s.per_connection_events[n - 1]? with
    | some (e :: _) => some (handleOf e)
    | _ => none

/-- One step of the facade: an RPC handler or a controller callback that
completes normally. -/
inductive Step : LeAclManagerFacadeService → LeAclManagerFacadeService → Prop where
  | createConn (request : LeConnectionMsg) (st : Status)
      (s s' : LeAclManagerFacadeService)
      (h : CreateConnection request s = some (st, s')) : Step s s'
  | fetchIncoming (st : Status) (s s' : LeAclManagerFacadeService)
      (h : FetchIncomingConnection s = some (st, s')) : Step s s'
  | disconnectRpc (request_handle : Nat) (s : LeAclManagerFacadeService) :
      Step s (Disconnect request_handle s).2
  | sendAclData (request : LeAclData) (s : LeAclManagerFacadeService) :
      Step s (SendAclData request s).2
  | onIncomingAcl (handle : Nat) (packet : List Nat)
      (s : LeAclManagerFacadeService) : Step s (on_incoming_acl handle packet s)
  | onDisconnectCb (entry : Nat) (code : ErrorCode)
      (s s' : LeAclManagerFacadeService)
      (h : on_disconnect entry code s = some s') : Step s s'
  | onSuccessCb (address_with_type : AddressWithType)
      (s s' : LeAclManagerFacadeService)
      (h : OnLeConnectSuccess address_with_type s = some s') : Step s s'
  | onFailCb (address : AddressWithType) (reason : ErrorCode)
      (s s' : LeAclManagerFacadeService)
      (h : OnLeConnectFail address reason s = some s') : Step s s'

/-- States reachable from a freshly constructed service. -/
inductive Reachable : LeAclManagerFacadeService → Prop where
  | init : Reachable initialState
  | step {s s' : LeAclManagerFacadeService} :
      Reachable s → Step s s' → Reachable s'

/-- Inductive invariant used for the event-log length analysis: the
`uint32_t` counter holds a value below its modulus, the log never grows past
`UINT32_MOD` entries, and below that bound its length is the counter or the
counter plus one. -/
def LogInv (s : LeAclManagerFacadeService) : Prop :=
  s.current_connection_request < UINT32_MOD ∧
  s.per_connection_events.length ≤ UINT32_MOD ∧
  (s.per_connection_events.length < UINT32_MOD →
    s.per_connection_events.length = s.current_connection_request ∨
    s.per_connection_events.length = s.current_connection_request + 1)

/-- Example request message for the spec's example peer, public address. -/
def req0 : LeConnectionMsg := ⟨"AA:BB:CC:DD:EE:FF", 0, true⟩

/-- Constant request family reusing `req0`. -/
def reqs0 : Nat → LeConnectionMsg := fun _ => req0

/-- Peer identity of `req0`. -/
def awt0 : AddressWithType := peerOf req0

/-- State with one request slot outstanding: one (still empty) channel in
the event log and counter 0. -/
def sOneSlot : LeAclManagerFacadeService := ⟨[], [], [[]], 0, []⟩

/-- State with one connection registered under handle 0x10 and one channel
outstanding for request 0. -/
def sWithConn : LeAclManagerFacadeService :=
  ⟨[(0x10, newRegisteredConnection)], [], [[]], 0, []⟩


theorem lget_set_self {α : Type} (l : List α) (i : Nat) (x b : α)
    (h : l[i]? = some x) : (l.set i b)[i]? = some b := by
  induction l generalizing i with
  | nil => simp at h
  | cons y ys ih =>
    cases i with
    | zero => simp
    | succ j =>
      simp only [List.getElem?_cons_succ] at h
      simpa using ih j h

theorem lget_lt {α : Type} (l : List α) (i : Nat) (x : α)
    (h : l[i]? = some x) : i < l.length := by
  induction l generalizing i with
  | nil => simp at h
  | cons y ys ih =>
    cases i with
    | zero => simp
    | succ j =>
      simp only [List.getElem?_cons_succ] at h
      simpa using ih j h

theorem lget_isSome_of_lt {α : Type} (l : List α) (i : Nat)
    (h : i < l.length) : (l[i]?).isSome = true := by
  induction l generalizing i with
  | nil => simp at h
  | cons y ys ih =>
    cases i with
    | zero => simp
    | succ j => simpa using ih j (by simpa using h)

theorem lset_concat_length {α : Type} (l : List α) (a b : α) :
    (l ++ [a]).set l.length b = l ++ [b] := by
  induction l with
  | nil => rfl
  | cons y ys ih => simp [ih]

theorem mapFind_cons (k k' : Nat) (v : LeAclConnection)
    (rest : List (Nat × LeAclConnection)) :
    mapFind k ((k', v) :: rest) = if k' = k then some v else mapFind k rest := rfl

theorem mapUpdate_cons (k k' : Nat) (f : LeAclConnection → LeAclConnection)
    (v : LeAclConnection) (rest : List (Nat × LeAclConnection)) :
    mapUpdate k f ((k', v) :: rest) =
      (if k' = k then (k, f v) else (k', v)) :: mapUpdate k f rest := rfl

theorem mapFind_mapUpdate_isSome (h k : Nat) (f : LeAclConnection → LeAclConnection)
    (m : List (Nat × LeAclConnection)) :
    (mapFind h (mapUpdate k f m)).isSome = (mapFind h m).isSome := by
  induction m with
  | nil => rfl
  | cons p rest ih =>
    obtain ⟨k', v⟩ := p
    rw [mapUpdate_cons]
    by_cases hk : k' = k
    · rw [if_pos hk, mapFind_cons, mapFind_cons]
      subst hk
      by_cases hh : k' = h
      · rw [if_pos hh, if_pos hh]
        rfl
      · rw [if_neg hh, if_neg hh]
        exact ih
    · rw [if_neg hk, mapFind_cons, mapFind_cons]
      by_cases hh : k' = h
      · rw [if_pos hh, if_pos hh]
      · rw [if_neg hh, if_neg hh]
        exact ih

theorem mapFind_concat_self (k : Nat) (v : LeAclConnection)
    (m : List (Nat × LeAclConnection)) (h : mapFind k m = none) :
    mapFind k (m ++ [(k, v)]) = some v := by
  induction m with
  | nil => simp [mapFind]
  | cons p rest ih =>
    obtain ⟨k', w⟩ := p
    rw [mapFind_cons] at h
    by_cases hk : k' = k
    · rw [if_pos hk] at h
      exact absurd h (by simp)
    · rw [if_neg hk] at h
      rw [List.cons_append, mapFind_cons, if_neg hk]
      exact ih h

theorem mapFind_mapEmplace_self_isSome (k : Nat) (v : LeAclConnection)
    (m : List (Nat × LeAclConnection)) :
    (mapFind k (mapEmplace k v m)).isSome = true := by
  unfold mapEmplace
  cases hm : mapFind k m with
  | some w => simp [hm]
  | none => simp [mapFind_concat_self k v m hm]

theorem mapFind_mapEmplace_of_none (k : Nat) (v : LeAclConnection)
    (m : List (Nat × LeAclConnection)) (h : mapFind k m = none) :
    mapFind k (mapEmplace k v m) = some v := by
  unfold mapEmplace
  rw [h]
  exact mapFind_concat_self k v m h

theorem Disconnect_frame (request_handle : Nat) (s : LeAclManagerFacadeService) :
    ((Disconnect request_handle s).2).per_connection_events = s.per_connection_events ∧
    ((Disconnect request_handle s).2).current_connection_request = s.current_connection_request := by
  unfold Disconnect
  cases mapFind request_handle s.acl_connections <;> simp

theorem SendAclData_frame (request : LeAclData) (s : LeAclManagerFacadeService) :
    ((SendAclData request s).2).per_connection_events = s.per_connection_events ∧
    ((SendAclData request s).2).current_connection_request = s.current_connection_request := by
  unfold SendAclData
  cases mapFind request.handle s.acl_connections <;> simp


theorem eventsAfter_length (reqs : Nat → LeConnectionMsg) (k : Nat) :
    (eventsAfter reqs k).length = k := by
  simp [eventsAfter]

theorem eventsAfter_succ (reqs : Nat → LeConnectionMsg) (k : Nat) :
    eventsAfter reqs (k + 1) = eventsAfter reqs k ++ [[successEvent (reqs k) k]] := by
  simp [eventsAfter, List.range_succ]

theorem createdAfter_succ (reqs : Nat → LeConnectionMsg) (k : Nat) :
    createdAfter reqs (k + 1) = createdAfter reqs k ++ [peerOf (reqs k)] := by
  simp [createdAfter, List.range_succ]

theorem registryAfter_succ (k : Nat) :
    registryAfter (k + 1) =
      mapEmplace (to_handle k) newRegisteredConnection (registryAfter k) := by
  simp [registryAfter, List.range_succ]

theorem eventsAfter_concat_idx (reqs : Nat → LeConnectionMsg) (k : Nat) :
    (eventsAfter reqs k ++ [[]])[k]? = some ([] : List LeConnectionEventPacket) := by
  have h2 := List.getElem?_concat_length (eventsAfter reqs k)
    ([] : List LeConnectionEventPacket)
  rwa [eventsAfter_length] at h2

theorem successEvent_fold (request : LeConnectionMsg) (i : Nat) :
    LeConnectionEventPacket.leConnectionComplete ErrorCode.SUCCESS (to_handle i)
      Role.MASTER request.address_type request.address 1 2 3 ClockAccuracy.PPM_20
    = successEvent request i := rfl

theorem createConn_at_drained (reqs : Nat → LeConnectionMsg) (k : Nat)
    (hv : (reqs k).address_valid = true) (hk : k < UINT32_MOD) :
    CreateConnection (reqs k) (stateAfterDrained reqs k) =
      some (⟨StatusCode.OK, ""⟩, pendingState reqs k) := by
  have hmod : k % UINT32_MOD = k := Nat.mod_eq_of_lt hk
  simp [CreateConnection, stateAfterDrained, pendingState, hv, hmod,
    eventsAfter_length, eventsAfter_concat_idx, peerOf]

theorem onSuccess_at_pending (reqs : Nat → LeConnectionMsg) (k : Nat)
    (hk : k < UINT32_MOD) :
    OnLeConnectSuccess (peerOf (reqs k)) (pendingState reqs k) =
      some (stateAfterDrained reqs (k + 1)) := by
  have hmod : k % UINT32_MOD = k := Nat.mod_eq_of_lt hk
  have hset : (eventsAfter reqs k ++ [[]]).set k [successEvent (reqs k) k] =
      eventsAfter reqs (k + 1) := by
    have h2 := lset_concat_length (eventsAfter reqs k)
      ([] : List LeConnectionEventPacket) [successEvent (reqs k) k]
    rw [eventsAfter_length] at h2
    rw [h2, eventsAfter_succ]
  simp [OnLeConnectSuccess, pendingState, stateAfterDrained, hmod,
    eventsAfter_concat_idx, registryAfter_succ, createdAfter_succ,
    peerOf, successEvent_fold, hset]

theorem runDrained_eq (reqs : Nat → LeConnectionMsg)
    (hv : ∀ i, (reqs i).address_valid = true) :
    ∀ k, k ≤ UINT32_MOD → runDrained reqs k = some (stateAfterDrained reqs k) := by
  intro k
  induction k with
  | zero =>
    intro _
    simp [runDrained, stateAfterDrained, eventsAfter, createdAfter,
      registryAfter, initialState]
  | succ k ih =>
    intro hk
    have hk2 : k < UINT32_MOD := Nat.lt_of_lt_of_le (Nat.lt_succ_self k) hk
    have hstep : drainedRound (reqs k) (stateAfterDrained reqs k) =
        some (stateAfterDrained reqs (k + 1)) := by
      unfold drainedRound
      rw [createConn_at_drained reqs k (hv k) hk2]
      simp [onSuccess_at_pending reqs k hk2]
    unfold runDrained
    rw [ih (Nat.le_of_lt hk2)]
    exact hstep


theorem runDrained_reachable (reqs : Nat → LeConnectionMsg) :
    ∀ k s, runDrained reqs k = some s → Reachable s := by
  intro k
  induction k with
  | zero =>
    intro s hs
    simp only [runDrained, Option.some.injEq] at hs
    subst hs
    exact Reachable.init
  | succ k ih =>
    intro s hs
    unfold runDrained at hs
    cases hrk : runDrained reqs k with
    | none => simp [hrk] at hs
    | some s1 =>
      simp only [hrk] at hs
      unfold drainedRound at hs
      cases hcc : CreateConnection (reqs k) s1 with
      | none => simp [hcc] at hs
      | some p =>
        obtain ⟨st, s2⟩ := p
        simp only [hcc] at hs
        by_cases hok : st.code = StatusCode.OK
        · rw [if_pos hok] at hs
          exact Reachable.step
            (Reachable.step (ih s1 hrk) (Step.createConn (reqs k) st s1 s2 hcc))
            (Step.onSuccessCb (peerOf (reqs k)) s2 s hs)
        · rw [if_neg hok] at hs
          exact absurd hs (by simp)

theorem CreateConnection_cases (request : LeConnectionMsg)
    (s : LeAclManagerFacadeService) (st : Status) (s' : LeAclManagerFacadeService)
    (h : CreateConnection request s = some (st, s')) :
    (s'.per_connection_events = s.per_connection_events ∧
      s'.current_connection_request = s.current_connection_request) ∨
    (s'.per_connection_events = s.per_connection_events ++ [[]] ∧
      s'.current_connection_request = s.current_connection_request ∧
      s.per_connection_events.length = s.current_connection_request) := by
  unfold CreateConnection at h
  by_cases hv : request.address_valid = false
  · rw [if_pos hv] at h
    exact absurd h (by simp)
  · rw [if_neg hv] at h
    split at h
    · left
      cases h
      exact ⟨rfl, rfl⟩
    · rename_i hle
      split at h
      · exact absurd h (by simp)
      · rename_i ch hidx
        cases h
        right
        refine ⟨rfl, rfl, ?_⟩
        have h2 : s.current_connection_request <
            (s.per_connection_events ++ [[]]).length :=
          lget_lt _ _ _ hidx
        simp only [List.length_append, List.length_cons, List.length_nil] at h2
        omega

theorem FetchIncoming_cases (s : LeAclManagerFacadeService) (st : Status)
    (s' : LeAclManagerFacadeService)
    (h : FetchIncomingConnection s = some (st, s')) :
    (s'.per_connection_events = s.per_connection_events ∧
      s'.current_connection_request = s.current_connection_request) ∨
    (s'.per_connection_events = s.per_connection_events ++ [[]] ∧
      s'.current_connection_request = s.current_connection_request ∧
      s.per_connection_events.length = s.current_connection_request) := by
  unfold FetchIncomingConnection at h
  split at h
  · left
    cases h
    exact ⟨rfl, rfl⟩
  · rename_i hle
    split at h
    · exact absurd h (by simp)
    · rename_i ch hidx
      cases h
      right
      refine ⟨rfl, rfl, ?_⟩
      have h2 : s.current_connection_request <
          (s.per_connection_events ++ [[]]).length :=
        lget_lt _ _ _ hidx
      simp only [List.length_append, List.length_cons, List.length_nil] at h2
      omega

theorem OnLeConnectSuccess_shape (address_with_type : AddressWithType)
    (s s' : LeAclManagerFacadeService)
    (h : OnLeConnectSuccess address_with_type s = some s') :
    s'.per_connection_events.length = s.per_connection_events.length ∧
    s'.current_connection_request = (s.current_connection_request + 1) % UINT32_MOD ∧
    s.current_connection_request < s.per_connection_events.length := by
  unfold OnLeConnectSuccess at h
  cases hidx : s.per_connection_events[s.current_connection_request]? with
  | none => simp [hidx] at h
  | some ch =>
    simp only [hidx, Option.some.injEq] at h
    subst h
    exact ⟨List.length_set _ _ _, rfl, lget_lt _ _ _ hidx⟩

theorem OnLeConnectFail_shape (address : AddressWithType) (reason : ErrorCode)
    (s s' : LeAclManagerFacadeService)
    (h : OnLeConnectFail address reason s = some s') :
    s'.per_connection_events.length = s.per_connection_events.length ∧
    s'.current_connection_request = (s.current_connection_request + 1) % UINT32_MOD ∧
    s.current_connection_request < s.per_connection_events.length := by
  unfold OnLeConnectFail at h
  cases hidx : s.per_connection_events[s.current_connection_request]? with
  | none => simp [hidx] at h
  | some ch =>
    simp only [hidx, Option.some.injEq] at h
    subst h
    exact ⟨List.length_set _ _ _, rfl, lget_lt _ _ _ hidx⟩

theorem on_disconnect_shape (entry : Nat) (code : ErrorCode)
    (s s' : LeAclManagerFacadeService)
    (h : on_disconnect entry code s = some s') :
    s'.per_connection_events.length = s.per_connection_events.length ∧
    s'.current_connection_request = s.current_connection_request := by
  unfold on_disconnect at h
  cases hidx : s.per_connection_events[entry]? with
  | none => simp [hidx] at h
  | some ch =>
    simp only [hidx, Option.some.injEq] at h
    subst h
    exact ⟨List.length_set _ _ _, rfl⟩

theorem logInv_init : LogInv initialState := by
  refine ⟨?_, ?_, ?_⟩ <;> simp [LogInv, initialState, UINT32_MOD]

theorem logInv_step {s s' : LeAclManagerFacadeService}
    (hinv : LogInv s) (hstep : Step s s') : LogInv s' := by
  obtain ⟨hseq, hlen, hrel⟩ := hinv
  cases hstep with
  | createConn request st s s' h =>
    rcases CreateConnection_cases request s st s' h with
      ⟨he, hc⟩ | ⟨he, hc, heq⟩
    · exact ⟨hc ▸ hseq, he ▸ hlen, by rw [he, hc]; exact hrel⟩
    · refine ⟨hc ▸ hseq, ?_, ?_⟩ <;>
        simp only [he, hc, List.length_append, List.length_cons, List.length_nil] <;>
        omega
  | fetchIncoming st s s' h =>
    rcases FetchIncoming_cases s st s' h with ⟨he, hc⟩ | ⟨he, hc, heq⟩
    · exact ⟨hc ▸ hseq, he ▸ hlen, by rw [he, hc]; exact hrel⟩
    · refine ⟨hc ▸ hseq, ?_, ?_⟩ <;>
        simp only [he, hc, List.length_append, List.length_cons, List.length_nil] <;>
        omega
  | disconnectRpc request_handle s =>
    obtain ⟨he, hc⟩ := Disconnect_frame request_handle s
    exact ⟨hc ▸ hseq, he ▸ hlen, by rw [he, hc]; exact hrel⟩
  | sendAclData request s =>
    obtain ⟨he, hc⟩ := SendAclData_frame request s
    exact ⟨hc ▸ hseq, he ▸ hlen, by rw [he, hc]; exact hrel⟩
  | onIncomingAcl handle packet s =>
    exact ⟨hseq, hlen, hrel⟩
  | onDisconnectCb entry code s s' h =>
    obtain ⟨he, hc⟩ := on_disconnect_shape entry code s s' h
    exact ⟨hc ▸ hseq, he ▸ hlen, by rw [he, hc]; exact hrel⟩
  | onSuccessCb address_with_type s s' h =>
    obtain ⟨he, hc, hlt⟩ := OnLeConnectSuccess_shape address_with_type s s' h
    unfold LogInv
    rw [he, hc]
    unfold UINT32_MOD at hseq hlen hrel ⊢
    refine ⟨?_, hlen, ?_⟩ <;> omega
  | onFailCb address reason s s' h =>
    obtain ⟨he, hc, hlt⟩ := OnLeConnectFail_shape address reason s s' h
    unfold LogInv
    rw [he, hc]
    unfold UINT32_MOD at hseq hlen hrel ⊢
    refine ⟨?_, hlen, ?_⟩ <;> omega

theorem reachable_logInv {s : LeAclManagerFacadeService} (h : Reachable s) :
    LogInv s := by
  induction h with
  | init => exact logInv_init
  | step hr hs ih => exact logInv_step ih hs


/-- C3 counterexample: at request sequence number 0xdf0 the handle
allocator returns 0.  This agrees with the formula `(seq + K) mod M` but is
outside the claimed interval `[K, K + M)`: the returned handle is not at
least K = 0x10. -/
theorem c3_to_handle_counterexample :
    to_handle 0xdf0 = (0xdf0 + 0x10) % 0xe00 ∧ ¬ 0x10 ≤ to_handle 0xdf0 := by
  decide

/-- C3 amended: the handle allocator is a pure total function returning
`((seq + 0x10) mod 2^32) mod 0xe00`, which always lies in `[0, 0xe00)` (but
not always in `[0x10, 0x10 + 0xe00)`); whenever the uint32 addition does
not wrap it coincides with `(seq + 0x10) mod 0xe00`. -/
theorem c3_to_handle_amended (seq : Nat) :
    to_handle seq < 0xe00 ∧
    (seq + 0x10 < UINT32_MOD → to_handle seq = (seq + 0x10) % 0xe00) := by
  constructor
  · exact Nat.mod_lt _ (by norm_num)
  · intro hlt
    unfold to_handle
    rw [Nat.mod_eq_of_lt hlt]

/-- C3 witness: at sequence number 0 the amended contract gives handle
0x10. -/
theorem c3_to_handle_amended_witness :
    to_handle 0 < 0xe00 ∧ to_handle 0 = (0 + 0x10) % 0xe00 :=
  ⟨(c3_to_handle_amended 0).1,
    (c3_to_handle_amended 0).2 (by norm_num [UINT32_MOD])⟩

/-- C5: for a handle absent from the connection registry, SendAclData and
Disconnect both return INVALID_ARGUMENT and return the state unchanged: no
registry change, no event-log change, no counter change, no queue change,
no enqueue registration and no disconnect issued on any connection. -/
theorem c5_unknown_handle_rejected (h : Nat) (payload : List Nat)
    (s : LeAclManagerFacadeService)
    (habs : mapFind h s.acl_connections = none) :
    SendAclData ⟨h, payload⟩ s =
      (⟨StatusCode.INVALID_ARGUMENT, "Invalid handle"⟩, s) ∧
    Disconnect h s = (⟨StatusCode.INVALID_ARGUMENT, "Invalid handle"⟩, s) := by
  constructor
  · unfold SendAclData
    simp only [habs]
  · unfold Disconnect
    simp only [habs]

/-- C5 witness: handle 5 on the initial state. -/
theorem c5_unknown_handle_rejected_witness :
    SendAclData ⟨5, [1, 2]⟩ initialState =
      (⟨StatusCode.INVALID_ARGUMENT, "Invalid handle"⟩, initialState) ∧
    Disconnect 5 initialState =
      (⟨StatusCode.INVALID_ARGUMENT, "Invalid handle"⟩, initialState) :=
  c5_unknown_handle_rejected 5 [1, 2] initialState rfl

/-- C7: on a disconnect notification for the request at sequence number
`entry` (whose channel exists), the facade pushes a disconnect event with
handle `to_handle entry` and the mapped reason into channel `entry`, leaves
the shared incoming-data channel untouched, and removes no registry
entry (every handle present before is present after). -/
theorem c7_on_disconnect (entry : Nat) (code : ErrorCode)
    (s : LeAclManagerFacadeService) (ch : List LeConnectionEventPacket)
    (hch : s.per_connection_events[entry]? = some ch) :
    ∃ s', on_disconnect entry code s = some s' ∧
      s'.per_connection_events[entry]? =
        some (ch ++ [LeConnectionEventPacket.disconnect (to_handle entry) code]) ∧
      s'.pending_acl_data = s.pending_acl_data ∧
      (∀ h : Nat, (mapFind h s'.acl_connections).isSome =
        (mapFind h s.acl_connections).isSome) := by
  unfold on_disconnect
  rw [hch]
  refine ⟨_, rfl, ?_, rfl, ?_⟩
  · exact lget_set_self _ _ _ _ hch
  · intro h
    exact mapFind_mapUpdate_isSome h (to_handle entry)
      (fun c => { c with dequeue_registered := false, finished := true })
      s.acl_connections

/-- C7 witness: disconnect of the request-0 connection in `sWithConn`
pushes the expected event into channel 0, keeps the shared data channel
empty and keeps handle 0x10 registered. -/
theorem c7_on_disconnect_witness :
    (on_disconnect 0 REMOTE_USER_TERMINATED_CONNECTION sWithConn).isSome = true ∧
    (on_disconnect 0 REMOTE_USER_TERMINATED_CONNECTION sWithConn).map
        (fun s' => s'.per_connection_events[0]?) =
      some (some [LeConnectionEventPacket.disconnect (to_handle 0)
        REMOTE_USER_TERMINATED_CONNECTION]) := by
  obtain ⟨s', hs, hch, hp, hm⟩ :=
    c7_on_disconnect 0 REMOTE_USER_TERMINATED_CONNECTION sWithConn [] rfl
  rw [hs]
  refine ⟨rfl, ?_⟩
  show some (s'.per_connection_events[0]?) =
    some (some [LeConnectionEventPacket.disconnect (to_handle 0)
      REMOTE_USER_TERMINATED_CONNECTION])
  exact congrArg some hch

/-- C8: every normally returning CreateConnection call, accepted or
rejected, has invoked the external connection manager primitive
`CreateLeConnection` exactly once for the requested peer (the call happens
before the admission check, so even a RESOURCE_EXHAUSTED rejection has
already initiated a connection attempt). -/
theorem c8_createLeConnection_always_invoked (request : LeConnectionMsg)
    (s : LeAclManagerFacadeService) (st : Status)
    (s' : LeAclManagerFacadeService)
    (h : CreateConnection request s = some (st, s')) :
    s'.created_le_connections =
      s.created_le_connections ++ [⟨request.address, request.address_type⟩] := by
  unfold CreateConnection at h
  by_cases hv : request.address_valid = false
  · rw [if_pos hv] at h
    exact absurd h (by simp)
  · rw [if_neg hv] at h
    split at h
    · cases h
      rfl
    · split at h
      · exact absurd h (by simp)
      · cases h
        rfl

/-- C8 witness: a rejected second request still appends its peer to the
manager call log. -/
theorem c8_createLeConnection_always_invoked_witness :
    (⟨[], [], [[]], 0, [⟨"AA:BB:CC:DD:EE:FF", 0⟩]⟩ :
        LeAclManagerFacadeService).created_le_connections =
      sOneSlot.created_le_connections ++ [⟨req0.address, req0.address_type⟩] :=
  c8_createLeConnection_always_invoked req0 sOneSlot
    ⟨StatusCode.RESOURCE_EXHAUSTED, "Only one outstanding request is supported"⟩
    ⟨[], [], [[]], 0, [⟨"AA:BB:CC:DD:EE:FF", 0⟩]⟩ (by decide)

/-- C2 counterexample: with one request outstanding, a second
CreateConnection is rejected with RESOURCE_EXHAUSTED, yet the external
connection manager's connect primitive has been invoked for the rejected
request: the manager call log grows, contradicting the claim that the
connect primitive is not invoked. -/
theorem c2_rejection_counterexample :
    ∃ st s', CreateConnection req0 sOneSlot = some (st, s') ∧
      st.code = StatusCode.RESOURCE_EXHAUSTED ∧
      s'.created_le_connections ≠ sOneSlot.created_le_connections :=
  ⟨⟨StatusCode.RESOURCE_EXHAUSTED, "Only one outstanding request is supported"⟩,
    ⟨[], [], [[]], 0, [⟨"AA:BB:CC:DD:EE:FF", 0⟩]⟩, by decide, rfl, by decide⟩

/-- C2 amended: a CreateConnection call that arrives while a previous
request's slot is still active returns RESOURCE_EXHAUSTED and changes no
facade bookkeeping state — no handle is allocated, no event channel is
appended, registry and counter are unchanged — but the external connection
manager's connect primitive has already been invoked for the rejected
request (its call log grows by that peer). -/
theorem c2_rejection_amended (request : LeConnectionMsg)
    (s : LeAclManagerFacadeService) (hv : request.address_valid = true)
    (hout : s.per_connection_events.length > s.current_connection_request) :
    CreateConnection request s =
      some (⟨StatusCode.RESOURCE_EXHAUSTED,
          "Only one outstanding request is supported"⟩,
        { s with created_le_connections :=
          s.created_le_connections ++ [⟨request.address, request.address_type⟩] }) := by
  unfold CreateConnection
  rw [hv]
  simp [hout]

/-- C2 witness: the rejection on `sOneSlot`. -/
theorem c2_rejection_amended_witness :
    CreateConnection req0 sOneSlot =
      some (⟨StatusCode.RESOURCE_EXHAUSTED,
          "Only one outstanding request is supported"⟩,
        { sOneSlot with created_le_connections :=
          sOneSlot.created_le_connections ++ [⟨req0.address, req0.address_type⟩] }) :=
  c2_rejection_amended req0 sOneSlot rfl (by decide)

/-- C10: the indexed channel accesses of the three callbacks are in bounds
exactly under the outstanding-request precondition: with
`size > current_connection_request` (respectively `size > entry`) the
callbacks complete normally, and without it they index past the end of the
event log (undefined behaviour, modelled as `none`). -/
theorem c10_callback_indexing (address_with_type : AddressWithType)
    (reason : ErrorCode) (entry : Nat) (code : ErrorCode)
    (s : LeAclManagerFacadeService) :
    (s.per_connection_events.length > s.current_connection_request →
      (OnLeConnectSuccess address_with_type s).isSome = true ∧
      (OnLeConnectFail address_with_type reason s).isSome = true) ∧
    (s.per_connection_events.length ≤ s.current_connection_request →
      OnLeConnectSuccess address_with_type s = none ∧
      OnLeConnectFail address_with_type reason s = none) ∧
    (s.per_connection_events.length > entry →
      (on_disconnect entry code s).isSome = true) ∧
    (s.per_connection_events.length ≤ entry →
      on_disconnect entry code s = none) := by
  refine ⟨?_, ?_, ?_, ?_⟩
  · intro hlt
    have h1 := lget_isSome_of_lt s.per_connection_events
      s.current_connection_request hlt
    cases hidx : s.per_connection_events[s.current_connection_request]? with
    | none => rw [hidx] at h1; simp at h1
    | some ch =>
      constructor
      · unfold OnLeConnectSuccess
        rw [hidx]
        rfl
      · unfold OnLeConnectFail
        rw [hidx]
        rfl
  · intro hle
    have h1 : s.per_connection_events[s.current_connection_request]? = none :=
      List.getElem?_eq_none hle
    constructor
    · unfold OnLeConnectSuccess
      rw [h1]
    · unfold OnLeConnectFail
      rw [h1]
  · intro hlt
    cases hidx : s.per_connection_events[entry]? with
    | none =>
      have h1 := lget_isSome_of_lt s.per_connection_events entry hlt
      rw [hidx] at h1
      simp at h1
    | some ch =>
      unfold on_disconnect
      rw [hidx]
      rfl
  · intro hle
    have h1 : s.per_connection_events[entry]? = none :=
      List.getElem?_eq_none hle
    unfold on_disconnect
    rw [h1]

/-- C10 witness: with one outstanding slot the callbacks complete; on the
empty initial log they index out of bounds. -/
theorem c10_callback_indexing_witness :
    ((OnLeConnectSuccess awt0 sOneSlot).isSome = true ∧
      (OnLeConnectFail awt0 7 sOneSlot).isSome = true) ∧
    (OnLeConnectSuccess awt0 initialState = none ∧
      OnLeConnectFail awt0 7 initialState = none) ∧
    (on_disconnect 0 19 sOneSlot).isSome = true ∧
    on_disconnect 0 19 initialState = none :=
  ⟨(c10_callback_indexing awt0 7 0 19 sOneSlot).1 (by decide),
    (c10_callback_indexing awt0 7 0 19 initialState).2.1 (by decide),
    (c10_callback_indexing awt0 7 0 19 sOneSlot).2.2.1 (by decide),
    (c10_callback_indexing awt0 7 0 19 initialState).2.2.2 (by decide)⟩


theorem nthDeliveredHandle_eq (reqs : Nat → LeConnectionMsg)
    (hv : ∀ i, (reqs i).address_valid = true) (n : Nat)
    (h1 : 1 ≤ n) (h2 : n ≤ UINT32_MOD) :
    nthDeliveredHandle reqs n = some (to_handle (n - 1)) := by
  unfold nthDeliveredHandle
  rw [runDrained_eq reqs hv n h2]
  have hidx : (eventsAfter reqs n)[n - 1]? =
      some [successEvent (reqs (n - 1)) (n - 1)] := by
    unfold eventsAfter
    rw [List.getElem?_map, List.getElem?_range (by omega)]
    rfl
  simp [stateAfterDrained, hidx, handleOf, successEvent]

/-- C1 counterexample: in a fully drained run, the request with
n = 2^32 - 15 (sequence number 2^32 - 16) is delivered handle 0, because
the uint32 addition inside the allocator wraps, while the claimed formula
`(n - 1 + 0x10) mod 0xe00` gives 2048. -/
theorem c1_drained_handles_counterexample :
    nthDeliveredHandle reqs0 (UINT32_MOD - 15) ≠
      some ((UINT32_MOD - 15 - 1 + 0x10) % 0xe00) := by
  rw [nthDeliveredHandle_eq reqs0 (fun i => rfl) (UINT32_MOD - 15)
    (by norm_num [UINT32_MOD]) (Nat.sub_le _ _)]
  unfold to_handle UINT32_MOD
  decide

/-- C1 amended: in a drained run the n-th request's delivered handle is
`to_handle (n - 1) = ((n - 1 + 0x10) mod 2^32) mod 0xe00` for all
1 ≤ n ≤ 2^32 (the inner mod is the uint32 wrap; below n = 2^32 - 15 this
equals `(n - 1 + 0x10) mod 0xe00`). -/
theorem c1_drained_handles (reqs : Nat → LeConnectionMsg)
    (hv : ∀ i, (reqs i).address_valid = true) (n : Nat)
    (h1 : 1 ≤ n) (h2 : n ≤ UINT32_MOD) :
    nthDeliveredHandle reqs n =
      some (((n - 1 + 0x10) % UINT32_MOD) % 0xe00) :=
  nthDeliveredHandle_eq reqs hv n h1 h2

/-- C1 witness: the first request of a drained run gets handle 0x10. -/
theorem c1_drained_handles_witness :
    nthDeliveredHandle reqs0 1 =
      some (((1 - 1 + 0x10) % UINT32_MOD) % 0xe00) :=
  c1_drained_handles reqs0 (fun i => rfl) 1 (by norm_num)
    (by norm_num [UINT32_MOD])

/-- C4 amended: on a success callback with an outstanding request at the
current sequence number, the facade emplaces the connection under
`to_handle seq` (an entry for that handle is present afterwards, and when
the handle was free it maps to the new connection), pushes a success
connection-complete event with that handle, role MASTER and success status
into channel `seq`, leaves the shared data channel alone, and sets the
counter to `(seq + 1) mod 2^32`. -/
theorem c4_success_callback (address_with_type : AddressWithType)
    (s : LeAclManagerFacadeService) (ch : List LeConnectionEventPacket)
    (hch : s.per_connection_events[s.current_connection_request]? = some ch) :
    ∃ s', OnLeConnectSuccess address_with_type s = some s' ∧
      (mapFind (to_handle s.current_connection_request)
        s'.acl_connections).isSome = true ∧
      (mapFind (to_handle s.current_connection_request) s.acl_connections = none →
        mapFind (to_handle s.current_connection_request) s'.acl_connections =
          some newRegisteredConnection) ∧
      s'.per_connection_events[s.current_connection_request]? =
        some (ch ++ [LeConnectionEventPacket.leConnectionComplete
          ErrorCode.SUCCESS (to_handle s.current_connection_request) Role.MASTER
          address_with_type.address_type address_with_type.address
          1 2 3 ClockAccuracy.PPM_20]) ∧
      s'.current_connection_request =
        (s.current_connection_request + 1) % UINT32_MOD ∧
      s'.pending_acl_data = s.pending_acl_data := by
  unfold OnLeConnectSuccess
  rw [hch]
  refine ⟨_, rfl, ?_, ?_, ?_, rfl, rfl⟩
  · exact mapFind_mapEmplace_self_isSome _ _ _
  · intro habs
    exact mapFind_mapEmplace_of_none _ _ _ habs
  · exact lget_set_self _ _ _ _ hch

/-- C4 witness: the first success callback on `sOneSlot` registers handle
0x10 and pushes the success event into channel 0. -/
theorem c4_success_callback_witness :
    (OnLeConnectSuccess awt0 sOneSlot).isSome = true ∧
    (OnLeConnectSuccess awt0 sOneSlot).map
        (fun s' => mapFind (to_handle sOneSlot.current_connection_request)
          s'.acl_connections) =
      some (some newRegisteredConnection) ∧
    (OnLeConnectSuccess awt0 sOneSlot).map
        (fun s' => s'.current_connection_request) =
      some ((sOneSlot.current_connection_request + 1) % UINT32_MOD) := by
  obtain ⟨s', hs, h1, h2, h3, h4, h5⟩ :=
    c4_success_callback awt0 sOneSlot [] rfl
  rw [hs]
  refine ⟨rfl, ?_, ?_⟩
  · show some (mapFind (to_handle sOneSlot.current_connection_request)
      s'.acl_connections) = some (some newRegisteredConnection)
    exact congrArg some (h2 rfl)
  · show some s'.current_connection_request =
      some ((sOneSlot.current_connection_request + 1) % UINT32_MOD)
    exact congrArg some h4

/-- C4 counterexample: at the reachable state with an outstanding request
at sequence number 2^32 - 1, the success callback does not increment the
counter to seq + 1: the uint32 counter wraps to 0 instead. -/
theorem c4_success_callback_counterexample :
    Reachable (pendingState reqs0 (UINT32_MOD - 1)) ∧
    (pendingState reqs0 (UINT32_MOD - 1)).per_connection_events.length >
      (pendingState reqs0 (UINT32_MOD - 1)).current_connection_request ∧
    ∃ s', OnLeConnectSuccess (peerOf (reqs0 (UINT32_MOD - 1)))
        (pendingState reqs0 (UINT32_MOD - 1)) = some s' ∧
      s'.current_connection_request ≠
        (pendingState reqs0 (UINT32_MOD - 1)).current_connection_request + 1 := by
  have hk : UINT32_MOD - 1 < UINT32_MOD := by norm_num [UINT32_MOD]
  have hv : ∀ i, (reqs0 i).address_valid = true := fun i => rfl
  have hrun := runDrained_eq reqs0 hv (UINT32_MOD - 1) (Nat.sub_le _ _)
  have hcc := createConn_at_drained reqs0 (UINT32_MOD - 1) (hv _) hk
  have hmod : (UINT32_MOD - 1) % UINT32_MOD = UINT32_MOD - 1 :=
    Nat.mod_eq_of_lt hk
  refine ⟨Reachable.step (runDrained_reachable reqs0 (UINT32_MOD - 1) _ hrun)
    (Step.createConn _ _ _ _ hcc), ?_, ?_⟩
  · simp only [pendingState]
    rw [List.length_append, eventsAfter_length, hmod]
    show UINT32_MOD - 1 < UINT32_MOD - 1 + 1
    omega
  · refine ⟨_, onSuccess_at_pending reqs0 (UINT32_MOD - 1) hk, ?_⟩
    simp only [stateAfterDrained, pendingState]
    rw [hmod]
    unfold UINT32_MOD
    omega

theorem OnLeConnectFail_push (address : AddressWithType) (reason : ErrorCode)
    (s : LeAclManagerFacadeService) (ch : List LeConnectionEventPacket)
    (hch : s.per_connection_events[s.current_connection_request]? = some ch) :
    ∃ s', OnLeConnectFail address reason s = some s' ∧
      s'.per_connection_events[s.current_connection_request]? =
        some (ch ++ [LeConnectionEventPacket.leConnectionComplete
          reason 0 Role.MASTER address.address_type address.address
          0 0 0 ClockAccuracy.PPM_20]) ∧
      s'.acl_connections = s.acl_connections ∧
      s'.pending_acl_data = s.pending_acl_data ∧
      s'.current_connection_request =
        (s.current_connection_request + 1) % UINT32_MOD := by
  unfold OnLeConnectFail
  rw [hch]
  exact ⟨_, rfl, lget_set_self _ _ _ _ hch, rfl, rfl, rfl⟩

/-- C6 amended: on a failure callback with an outstanding request at the
current sequence number, the facade pushes a failure connection-complete
event with sentinel handle 0 into channel `seq`, leaves the registry and
the shared data channel completely unchanged, and sets the counter to
`(seq + 1) mod 2^32`. -/
theorem c6_fail_callback (address : AddressWithType) (reason : ErrorCode)
    (s : LeAclManagerFacadeService) (ch : List LeConnectionEventPacket)
    (hch : s.per_connection_events[s.current_connection_request]? = some ch) :
    ∃ s', OnLeConnectFail address reason s = some s' ∧
      s'.per_connection_events[s.current_connection_request]? =
        some (ch ++ [LeConnectionEventPacket.leConnectionComplete
          reason 0 Role.MASTER address.address_type address.address
          0 0 0 ClockAccuracy.PPM_20]) ∧
      s'.acl_connections = s.acl_connections ∧
      s'.pending_acl_data = s.pending_acl_data ∧
      s'.current_connection_request =
        (s.current_connection_request + 1) % UINT32_MOD :=
  OnLeConnectFail_push address reason s ch hch

/-- C6 witness: a failure callback on `sOneSlot` leaves the registry empty
and pushes the failure event with handle 0. -/
theorem c6_fail_callback_witness :
    (OnLeConnectFail awt0 7 sOneSlot).isSome = true ∧
    (OnLeConnectFail awt0 7 sOneSlot).map (fun s' => s'.acl_connections) =
      some sOneSlot.acl_connections ∧
    (OnLeConnectFail awt0 7 sOneSlot).map
        (fun s' => s'.per_connection_events[sOneSlot.current_connection_request]?) =
      some (some ([] ++ [LeConnectionEventPacket.leConnectionComplete
        7 0 Role.MASTER awt0.address_type awt0.address
        0 0 0 ClockAccuracy.PPM_20])) := by
  obtain ⟨s', hs, h1, h2, h3, h4⟩ := c6_fail_callback awt0 7 sOneSlot [] rfl
  rw [hs]
  refine ⟨rfl, ?_, ?_⟩
  · show some s'.acl_connections = some sOneSlot.acl_connections
    exact congrArg some h2
  · show some (s'.per_connection_events[sOneSlot.current_connection_request]?) =
      some (some ([] ++ [LeConnectionEventPacket.leConnectionComplete
        7 0 Role.MASTER awt0.address_type awt0.address
        0 0 0 ClockAccuracy.PPM_20]))
    exact congrArg some h1

/-- C6 counterexample: at the reachable state with an outstanding request
at sequence number 2^32 - 1, the failure callback does not increment the
counter to seq + 1: the uint32 counter wraps to 0 instead. -/
theorem c6_fail_callback_counterexample :
    Reachable (pendingState reqs0 (UINT32_MOD - 1)) ∧
    (pendingState reqs0 (UINT32_MOD - 1)).per_connection_events.length >
      (pendingState reqs0 (UINT32_MOD - 1)).current_connection_request ∧
    ∃ s', OnLeConnectFail awt0 7 (pendingState reqs0 (UINT32_MOD - 1)) = some s' ∧
      s'.current_connection_request ≠
        (pendingState reqs0 (UINT32_MOD - 1)).current_connection_request + 1 := by
  have hk : UINT32_MOD - 1 < UINT32_MOD := by norm_num [UINT32_MOD]
  have hv : ∀ i, (reqs0 i).address_valid = true := fun i => rfl
  have hrun := runDrained_eq reqs0 hv (UINT32_MOD - 1) (Nat.sub_le _ _)
  have hcc := createConn_at_drained reqs0 (UINT32_MOD - 1) (hv _) hk
  have hmod : (UINT32_MOD - 1) % UINT32_MOD = UINT32_MOD - 1 :=
    Nat.mod_eq_of_lt hk
  have hch : (pendingState reqs0 (UINT32_MOD - 1)).per_connection_events[
      (pendingState reqs0 (UINT32_MOD - 1)).current_connection_request]? =
      some [] := by
    simp only [pendingState]
    rw [hmod]
    exact eventsAfter_concat_idx reqs0 (UINT32_MOD - 1)
  refine ⟨Reachable.step (runDrained_reachable reqs0 (UINT32_MOD - 1) _ hrun)
    (Step.createConn _ _ _ _ hcc), ?_, ?_⟩
  · simp only [pendingState]
    rw [List.length_append, eventsAfter_length, hmod]
    show UINT32_MOD - 1 < UINT32_MOD - 1 + 1
    omega
  · obtain ⟨s', hs, h1, h2, h3, hseq⟩ :=
      OnLeConnectFail_push awt0 7 (pendingState reqs0 (UINT32_MOD - 1)) [] hch
    refine ⟨s', hs, ?_⟩
    rw [hseq]
    simp only [pendingState]
    rw [hmod]
    unfold UINT32_MOD
    omega

/-- C9 counterexample: the state reached after 2^32 drained rounds is
reachable, its event log has 2^32 entries, but the wrapped uint32 counter
is 0: the log length is neither the counter nor the counter plus one. -/
theorem c9_log_length_counterexample :
    Reachable (stateAfterDrained reqs0 UINT32_MOD) ∧
    ¬ ((stateAfterDrained reqs0 UINT32_MOD).per_connection_events.length =
        (stateAfterDrained reqs0 UINT32_MOD).current_connection_request ∨
      (stateAfterDrained reqs0 UINT32_MOD).per_connection_events.length =
        (stateAfterDrained reqs0 UINT32_MOD).current_connection_request + 1) := by
  have hv : ∀ i, (reqs0 i).address_valid = true := fun i => rfl
  have hrun := runDrained_eq reqs0 hv UINT32_MOD le_rfl
  refine ⟨runDrained_reachable reqs0 UINT32_MOD _ hrun, ?_⟩
  simp only [stateAfterDrained]
  rw [eventsAfter_length]
  unfold UINT32_MOD
  omega

/-- C9 amended: in every reachable state whose event log is shorter than
2^32 entries (that is, before the uint32 counter can wrap), the log length
equals the counter or the counter plus one; admissions move it from equal
to one above, terminal callbacks restore equality. -/
theorem c9_log_length_invariant (s : LeAclManagerFacadeService)
    (hs : Reachable s)
    (hlt : s.per_connection_events.length < UINT32_MOD) :
    s.per_connection_events.length = s.current_connection_request ∨
    s.per_connection_events.length = s.current_connection_request + 1 :=
  (reachable_logInv hs).2.2 hlt

/-- C9 witness: the invariant at the initial state. -/
theorem c9_log_length_invariant_witness :
    initialState.per_connection_events.length =
      initialState.current_connection_request ∨
    initialState.per_connection_events.length =
      initialState.current_connection_request + 1 :=
  c9_log_length_invariant initialState Reachable.init (by decide)

end LeAclManagerFacade
